import Mathlib

/-!
Verification of the acquisition-orchestration core of the tutorial corpus.

The flyer model below is a shallow embedding of the class `MyFlyer`
(the 1-D array version) from `advanced-acquisition/Flyer Basics.ipynb`.
Its mutable attributes `kickoff_status`, `complete_status` and `t0` become
the fields of a state record; each method becomes a function on that
record.  `time.time()` readings are modelled by rational numbers supplied
by an abstract clock, and a raised Python exception becomes an `Except`
error value.
-/

namespace Tutorial

/-- Resolution state of an `ophyd.DeviceStatus` object: freshly created
(`pending`) or finished via `_finished(success=True)` (`succeeded`). -/
inductive StatusState
  | pending
  | succeeded
  deriving DecidableEq

/-- A raised Python exception, carrying the exception message. -/
inductive PyError
  | runtimeError (msg : String)
  deriving DecidableEq

/-- State of a `MyFlyer` instance (the 1-D array version): the notebook class
stores two nullable status attributes and the kickoff time `t0`.
`kickoff_status` is not assigned in `__init__` at all, so it starts as `none`;
`__init__` sets `complete_status = None` and `t0 = 0`. -/
structure MyFlyer where
  kickoff_status : Option StatusState
  complete_status : Option StatusState
  t0 : ℚ
  deriving DecidableEq

/-- The state produced by `MyFlyer.__init__`. -/
def MyFlyer.init : MyFlyer :=
  { kickoff_status := none, complete_status := none, t0 := 0 }

/-- `MyFlyer.kickoff()`: unconditionally creates two fresh pending
`DeviceStatus` objects, records `t0 = time.time()` (the reading `tNow`),
spawns the `my_activity` worker thread, and returns the kickoff status.
The method contains no state check and no `raise`, so it is a total
function of the prior state — which it ignores entirely. -/
def MyFlyer.kickoff (_s : MyFlyer) (tNow : ℚ) : MyFlyer :=
  { kickoff_status := some .pending, complete_status := some .pending, t0 := tNow }

/-- First half of the worker `MyFlyer.my_activity()`: after the early-return
guard (`if self.complete_status is None: return`), the worker notifies that
the controller started via `self.kickoff_status._finished(success=True)`. -/
def MyFlyer.activity_started (s : MyFlyer) : MyFlyer :=
  if s.complete_status = none then s
  else { s with kickoff_status := some .succeeded }

/-- The full worker `MyFlyer.my_activity()` run to completion: early return
when `complete_status is None`, otherwise it finishes `kickoff_status` and
then `complete_status`. -/
def MyFlyer.my_activity (s : MyFlyer) : MyFlyer :=
  if s.complete_status = none then s
  else { s with kickoff_status := some .succeeded,
                complete_status := some .succeeded }

/-- `MyFlyer.complete()`: raises `RuntimeError("No collection in progress")`
when `complete_status is None` (the class's own test for an idle flyer),
otherwise returns the complete status. -/
def MyFlyer.complete (s : MyFlyer) : Except PyError StatusState :=
  match s.complete_status with
  | none => .error (.runtimeError ("No collection in progress"))
  | some st => .ok st

/-- One event dictionary yielded by `MyFlyer.collect()`: the `data` and
`timestamps` mappings have the single key `x`, modelled as fields. -/
structure FlyEvent where
  time : ℚ
  data_x : ℚ
  timestamps_x : ℚ
  deriving DecidableEq

/-- The dictionary built in the loop body of `collect()`:
`t = time.time(); x = t - self.t0;`
`dict(time=t, data=dict(x=x), timestamps=dict(x=t))`. -/
def mkFlyEvent (t t0 : ℚ) : FlyEvent :=
  { time := t, data_x := t - t0, timestamps_x := t }

/-- One advancement (one `next()`) of the generator returned by
`MyFlyer.collect()`.  `i` counts events yielded so far; `clock i` is the
`time.time()` reading of the `i`-th loop iteration.  On the first
advancement the generator body runs from the top, executing
`self.complete_status = None` before the `for _ in range(5)` loop; each
iteration yields one event; after five yields the generator is exhausted
(`none`, i.e. `StopIteration`).  The body contains no `raise`. -/
def MyFlyer.collect_next (s : MyFlyer) (clock : ℕ → ℚ) (i : ℕ) :
    Option (FlyEvent × MyFlyer) :=
  if i < 5 then
    let s1 := if i = 0 then { s with complete_status := none } else s
    some (mkFlyEvent (clock i) s1.t0, s1)
  else none

/-- Drive the `collect()` generator with `fuel` many `next()` calls,
collecting the yielded events and threading the (shared, mutable) device
state. -/
def MyFlyer.collect_from (clock : ℕ → ℚ) : MyFlyer → ℕ → ℕ → List FlyEvent × MyFlyer
  | s, _, 0 => ([], s)
  | s, i, fuel + 1 =>
    match s.collect_next clock i with
    | none => ([], s)
    | some (e, s1) =>
      let r := MyFlyer.collect_from clock s1 (i + 1) fuel
      (e :: r.1, r.2)

/-- Run the `collect()` generator to exhaustion (as `list(ifly.collect())`
does in the notebook), returning the yielded events and the final device
state. -/
def MyFlyer.collect_run (s : MyFlyer) (clock : ℕ → ℚ) : List FlyEvent × MyFlyer :=
  MyFlyer.collect_from clock s 0 6

/-- The spec's `Flying` state: kickoff's future has resolved and the
completion future is still pending. -/
def MyFlyer.Flying (s : MyFlyer) : Prop :=
  s.kickoff_status = some .succeeded ∧ s.complete_status = some .pending

/-- A concrete flyer in the `Flying` state: kicked off at time `0`, with the
worker having executed its start notification but not yet declared
completion. -/
def flyingExample : MyFlyer := (MyFlyer.init.kickoff 0).activity_started

/-- A concrete flyer whose flight has completed: kicked off at time `0`,
worker ran to completion, so `complete()`'s future has resolved. -/
def completedExample : MyFlyer := (MyFlyer.init.kickoff 0).my_activity

/-- Closed form of a full `collect()` run: five events at the successive
clock readings, and a device state whose `complete_status` is cleared. -/
lemma collect_run_eq (s : MyFlyer) (clock : ℕ → ℚ) :
    s.collect_run clock =
      ([mkFlyEvent (clock 0) s.t0, mkFlyEvent (clock 1) s.t0,
        mkFlyEvent (clock 2) s.t0, mkFlyEvent (clock 3) s.t0,
        mkFlyEvent (clock 4) s.t0],
       { s with complete_status := none }) := rfl

/-- A convenient scenario for the claims about collected data: kick off at
time `t0`, let the worker finish, then run `collect()` to exhaustion. -/
def kickoffThenCollect (t0 : ℚ) (clock : ℕ → ℚ) : List FlyEvent × MyFlyer :=
  ((MyFlyer.init.kickoff t0).my_activity).collect_run clock

/-- Claim C2: calling `complete()` while the Flyer is idle (no kickoff in
progress, i.e. `complete_status is None`, the class's own idleness test)
fails: the method raises `RuntimeError("No collection in progress")`, the
concrete exception the spec's taxonomy names `OutOfSequenceError`. -/
theorem complete_while_idle_raises (s : MyFlyer) (h : s.complete_status = none) :
    s.complete = .error (.runtimeError ("No collection in progress")) := by
  simp [MyFlyer.complete, h]

/-- Witness for C2: the freshly constructed flyer is idle and `complete()`
on it raises. -/
theorem complete_while_idle_raises_witness :
    MyFlyer.init.complete_status = none ∧
      MyFlyer.init.complete =
        .error (.runtimeError ("No collection in progress")) :=
  ⟨rfl, complete_while_idle_raises MyFlyer.init rfl⟩

/-- Claim C3, counterexample: `flyingExample` is in the `Flying` state, yet a
re-entrant `kickoff()` is not rejected — it returns normally, silently
replacing both status objects with fresh pending ones and resetting `t0`.
(The source `kickoff()` has no state check and no failure path at all, as
the total return type of `MyFlyer.kickoff` records.) -/
theorem kickoff_reentrant_not_rejected :
    flyingExample.Flying ∧
      flyingExample.kickoff 7 =
        { kickoff_status := some .pending, complete_status := some .pending,
          t0 := 7 } :=
  ⟨⟨rfl, rfl⟩, rfl⟩

/-- Claim C3 (amended): `kickoff()` performs no state check: from every
state — in particular while already `Flying` — it is silently accepted,
overwriting both status objects with fresh pending ones and resetting `t0`
to the new clock reading; no protocol violation is raised. -/
theorem kickoff_ignores_state (s : MyFlyer) (t : ℚ) :
    s.kickoff t =
      { kickoff_status := some .pending, complete_status := some .pending,
        t0 := t } := rfl

/-- Claim C4, counterexample: after a completed flight whose `collect()` has
already been consumed once (state `(kickoffThenCollect 0 clock).2`), a second
`collect()` in the same cycle does not fail with any error: it again yields
five events (at the fresh clock readings), since the source `collect()`
contains no state check and no `raise`. -/
theorem second_collect_not_protocol_violation :
    ((kickoffThenCollect 0 (fun _ => 1)).2.collect_run (fun _ => 2)).1 =
      [mkFlyEvent 2 0, mkFlyEvent 2 0, mkFlyEvent 2 0, mkFlyEvent 2 0,
       mkFlyEvent 2 0] := rfl

/-- Claim C4 (amended): `collect()` performs no state check: from every
state — in particular a state in which one `collect()` has already been
consumed in the same Flying-to-Idle cycle — a further `collect()` succeeds,
again clearing `complete_status` and yielding five fresh events; no
`ProtocolViolation` (or any other error) is raised. -/
theorem collect_always_yields_five (s : MyFlyer) (clock : ℕ → ℚ) :
    (s.collect_run clock).1.length = 5 ∧
      (s.collect_run clock).2.complete_status = none := by
  simp [collect_run_eq]

/-- Claim C9, counterexample: for the completed flyer, advancing the
`collect()` generator once already clears `complete_status` (the class's
idleness condition, under which `complete()` raises "No collection in
progress") while the sequence is not yet exhausted — a further event is
still pending.  So the state returns to idle at the first advancement, not
only after exhaustion. -/
theorem collect_idle_before_exhaustion :
    (completedExample.collect_next (fun _ => 1) 0).map
        (fun p => (p.2.complete_status,
          (p.2.collect_next (fun _ => 1) 1).isSome)) =
      some (none, true) := rfl

/-- Claim C9 (amended): `collect()` produces a lazy, finite sequence of
exactly five events; the flyer's `complete_status` is cleared — the code's
idle condition — already when the sequence is first advanced, before
exhaustion rather than after it; and the sequence is not one-shot: running
`collect()` again from the post-collect state yields five events again
rather than failing. -/
theorem collect_idle_at_first_advance (s : MyFlyer) (clock : ℕ → ℚ) :
    (s.collect_run clock).1.length = 5 ∧
      (s.collect_next clock 0).map (fun p => p.2.complete_status) =
        some none ∧
      ((s.collect_run clock).2.collect_run clock).1.length = 5 := by
  refine ⟨?_, rfl, ?_⟩ <;> simp [collect_run_eq]

/-- Claim C10: a kickoff-then-collect run of the 1-D array flyer yields
exactly five events; each event's `timestamps` entry for `x` equals the
event's `time`, its data value for `x` equals the event's time minus the
time `t0` recorded at kickoff, every data value is non-negative, and the
data values are non-decreasing across the five events — all under the
assumption that successive `time.time()` readings are monotone and do not
precede the kickoff reading. -/
theorem collect_event_values (t0 : ℚ) (clock : ℕ → ℚ)
    (hmono : ∀ i j : ℕ, i ≤ j → clock i ≤ clock j)
    (h0 : t0 ≤ clock 0) :
    (kickoffThenCollect t0 clock).1.length = 5 ∧
      (∀ e ∈ (kickoffThenCollect t0 clock).1,
        e.timestamps_x = e.time ∧ e.data_x = e.time - t0 ∧ 0 ≤ e.data_x) ∧
      List.Chain' (· ≤ ·)
        ((kickoffThenCollect t0 clock).1.map FlyEvent.data_x) := by
  have hc : ∀ i : ℕ, t0 ≤ clock i :=
    fun i => le_trans h0 (hmono 0 i (Nat.zero_le i))
  have hstep : ∀ i j : ℕ, i ≤ j → clock i - t0 ≤ clock j - t0 :=
    fun i j h => sub_le_sub_right (hmono i j h) t0
  refine ⟨rfl, ?_, ?_⟩
  · intro e he
    simp only [kickoffThenCollect, collect_run_eq, List.mem_cons,
      List.not_mem_nil, or_false] at he
    rcases he with h | h | h | h | h <;>
      (subst h;
       exact ⟨rfl, rfl, sub_nonneg.mpr (hc _)⟩)
  · simp only [kickoffThenCollect, collect_run_eq, List.map_cons,
      List.map_nil, List.chain'_cons, List.chain'_singleton, and_true]
    exact ⟨hstep 0 1 (by norm_num), hstep 1 2 (by norm_num),
      hstep 2 3 (by norm_num), hstep 3 4 (by norm_num)⟩

/-- Witness for C10: a constant clock reading `5` with kickoff at time `0`
satisfies the monotonicity hypotheses. -/
theorem collect_event_values_witness :
    (kickoffThenCollect 0 (fun _ => 5)).1.length = 5 ∧
      (∀ e ∈ (kickoffThenCollect 0 (fun _ => 5)).1,
        e.timestamps_x = e.time ∧ e.data_x = e.time - 0 ∧ 0 ≤ e.data_x) ∧
      List.Chain' (· ≤ ·)
        ((kickoffThenCollect 0 (fun _ => 5)).1.map FlyEvent.data_x) :=
  collect_event_values 0 (fun _ => 5) (fun _ _ _ => le_refl 5) (by norm_num)

/-!
Stream Aligner.  The notebooks perform alignment with pandas one-liners
(`sorted_data.ffill()`, `sorted_data.interpolate('linear')`,
`rolling(window=3).mean()`); the pandas library implementing them is an
external dependency, not part of this repository, so the policies are
modelled from the spec.  A column of the time-sorted merged table is a list
of `(time, cell)` rows in ascending time order, an empty (NaN) cell being
`none`.
-/

/-- Modelled from the spec: the forward-fill policy (`sorted_data.ffill()`,
whose implementation lives in pandas, outside this repository): walking the
time-sorted column, each empty cell takes the most recent preceding
non-empty value (`last`), and cells before the first non-empty value stay
empty. -/
def ffillAux : Option ℚ → List (ℚ × Option ℚ) → List (ℚ × Option ℚ)
  | _, [] => []
  | _, (t, some v) :: rest => (t, some v) :: ffillAux (some v) rest
  | last, (t, none) :: rest => (t, last) :: ffillAux last rest

/-- Forward fill of one column, starting with no preceding value. -/
def ffill (rows : List (ℚ × Option ℚ)) : List (ℚ × Option ℚ) :=
  ffillAux none rows

/-- The non-empty cells of a column strictly before time `t`, in order. -/
def knownBefore (rows : List (ℚ × Option ℚ)) (t : ℚ) : List (ℚ × ℚ) :=
  rows.filterMap fun p =>
    match p.2 with
    | some v => if p.1 < t then some (p.1, v) else none
    | none => none

/-- The non-empty cells of a column strictly after time `t`, in order. -/
def knownAfter (rows : List (ℚ × Option ℚ)) (t : ℚ) : List (ℚ × ℚ) :=
  rows.filterMap fun p =>
    match p.2 with
    | some v => if t < p.1 then some (p.1, v) else none
    | none => none

/-- Linear interpolation between the points `(t1, v1)` and `(t2, v2)`,
evaluated at time `t`. -/
def lerp (t1 v1 t2 v2 t : ℚ) : ℚ :=
  v1 + (v2 - v1) * (t - t1) / (t2 - t1)

/-- Modelled from the spec: the linear-interpolation policy
(`sorted_data.interpolate('linear')`, whose implementation lives in pandas,
outside this repository): each empty cell of the time-sorted column is the
linear interpolation between the column's nearest preceding and nearest
following known values at that cell's time; an empty cell with no preceding
or no following known value (outside the observed range) is left empty. -/
def interpolateLinear (rows : List (ℚ × Option ℚ)) : List (ℚ × Option ℚ) :=
  rows.map fun p =>
    match p.2 with
    | some v => (p.1, some v)
    | none =>
      match (knownBefore rows p.1).getLast?, (knownAfter rows p.1).head? with
      | some q1, some q2 => (p.1, some (lerp q1.1 q1.2 q2.1 q2.2 p.1))
      | _, _ => (p.1, none)

/-- Modelled from the spec: the downsampling step
(`rolling(window=3).mean()`, whose implementation lives in pandas, outside
this repository): the fixed-width trailing moving average with
caller-supplied window `w`; the entry at index `i` is the mean of the `w`
raw samples ending at index `i`, and indices with fewer than `w` preceding
samples are empty. -/
def rollingMean (w : ℕ) (xs : List ℚ) : List (Option ℚ) :=
  (List.range xs.length).map fun i =>
    if i + 1 < w then none
    else some (((xs.drop (i + 1 - w)).take w).sum / (w : ℚ))

/-- Claim C1: on a column with known points `(0, 0)` and `(10, 100)` and
empty cells at times `-1`, `5` and `11`, linear interpolation fills the
in-range cell at `t = 5` with exactly `50` and leaves the out-of-range
cells at `t = -1` and `t = 11` empty. -/
theorem interpolate_linear_example :
    interpolateLinear
        [(-1, none), (0, some 0), (5, none), (10, some 100), (11, none)] =
      [(-1, none), (0, some 0), (5, some 50), (10, some 100), (11, none)] := by
  norm_num [interpolateLinear, knownBefore, knownAfter, lerp]

/-- Claim C5: for streams A (times 0, 10, 20) and B (times 5, 15) merged and
sorted by time, forward fill gives A's column at `t = 5` the value from
`t = 0`, keeps B's own value at `t = 5`, and leaves B's column empty at
`t = 0` (a leading gap); every other empty cell takes the most recent
preceding value in its column. -/
theorem ffill_example (a0 a10 a20 b5 b15 : ℚ) :
    ffill [(0, some a0), (5, none), (10, some a10), (15, none),
           (20, some a20)] =
      [(0, some a0), (5, some a0), (10, some a10), (15, some a10),
       (20, some a20)] ∧
    ffill [(0, none), (5, some b5), (10, none), (15, some b15),
           (20, none)] =
      [(0, none), (5, some b5), (10, some b5), (15, some b15),
       (20, some b15)] :=
  ⟨rfl, rfl⟩

/-- Claim C6: with window `3` over the raw samples `[1, 2, 3, 4, 5]`, the
trailing moving average is empty before the window is full and from the
window onward equals the trailing mean of the three raw samples ending at
that index (`2, 3, 4`), which differs from the raw sample at that index
(`3, 4, 5`). -/
theorem rolling_mean_window3_example :
    rollingMean 3 [1, 2, 3, 4, 5] = [none, none, some 2, some 3, some 4] ∧
      (rollingMean 3 [1, 2, 3, 4, 5]).getD 2 none ≠ some 3 ∧
      (rollingMean 3 [1, 2, 3, 4, 5]).getD 3 none ≠ some 4 ∧
      (rollingMean 3 [1, 2, 3, 4, 5]).getD 4 none ≠ some 5 := by
  have h : rollingMean 3 [1, 2, 3, 4, 5] =
      [none, none, some 2, some 3, some 4] := by
    norm_num [rollingMean, List.range_succ]
  refine ⟨h, ?_, ?_, ?_⟩ <;> simp [h]

/-!
Plan Interpreter, synchronous fragment.  The notebooks run plans such as
`RE(count([det], num=5))`; the RunEngine executing them is the external
bluesky library, not part of this repository, so the sequencing behaviour
is modelled from the spec.
-/

/-- Modelled from the spec: a synchronous Instruction of a Plan — `read`
a device (emitting one Event to the primary stream) or `set` a device to a
value (emitting nothing). -/
inductive Instruction
  | read (device : String)
  | set (device : String) (value : ℚ)
  deriving DecidableEq

/-- Modelled from the spec: the Plan Interpreter's event sequencing for a
synchronous plan — the RunEngine itself is the external bluesky library.
`n` is the primary stream's per-stream event counter; each `read` emits an
Event carrying the incremented counter as its sequence number, and `set`
emits no Event.  Returns the emitted sequence numbers in emission order. -/
def emitSeqNums : ℕ → List Instruction → List ℕ
  | _, [] => []
  | n, .read _ :: rest => (n + 1) :: emitSeqNums (n + 1) rest
  | n, .set _ _ :: rest => emitSeqNums n rest

/-- The sequence numbers of the Events emitted to the primary stream by a
plan, the counter starting at `0` so the first Event is numbered `1`. -/
def primarySeqNums (plan : List Instruction) : List ℕ :=
  emitSeqNums 0 plan

/-- The number of `read` instructions in a plan. -/
def readCount : List Instruction → ℕ
  | [] => 0
  | .read _ :: rest => readCount rest + 1
  | .set _ _ :: rest => readCount rest

/-- With the counter at `n`, the emitted sequence numbers are the
consecutive block starting at `n + 1`, one per `read`. -/
lemma emitSeqNums_eq_range (plan : List Instruction) :
    ∀ n : ℕ, emitSeqNums n plan = List.range' (n + 1) (readCount plan) := by
  induction plan with
  | nil => intro n; rfl
  | cons i rest ih =>
    intro n
    cases i with
    | read d => simp [emitSeqNums, readCount, ih, List.range'_succ]
    | set d v => simp [emitSeqNums, readCount, ih]

/-- Claim C7: for every Plan of synchronous `read`/`set` instructions, the
sequence numbers of the Events emitted to the primary stream are exactly
`1..N` in order, `N` being the number of `read` instructions, and they are
strictly increasing; numbering is per stream, starting from `1`. -/
theorem primary_seq_nums_one_to_n (plan : List Instruction) :
    primarySeqNums plan = List.range' 1 (readCount plan) ∧
      List.Chain' (· < ·) (primarySeqNums plan) := by
  have h := emitSeqNums_eq_range plan 0
  constructor
  · simpa [primarySeqNums] using h
  · rw [primarySeqNums, h]
    exact (List.pairwise_lt_range' 1 (readCount plan)).chain'

/-!
Document Emitter.  The notebooks inspect the ordered document log with
`list(db[-1].documents())`; the RunEngine/databroker machinery producing
and storing it is an external dependency, not part of this repository, so
the emitter is modelled from the spec: an append-only ordered log whose
append operation enforces the ordering invariants, regardless of which
component produced the appended document.
-/

/-- The component that produced an event: an interpreter instruction, a
flyer collect, or a monitor.  The emitter's behaviour never depends on
this tag. -/
inductive Producer
  | interpreter
  | flyer
  | monitor
  deriving DecidableEq

/-- A document of the ordered run log. -/
inductive Doc
  | start
  | descriptor (stream : String)
  | event (stream : String) (producer : Producer)
  | stop
  deriving DecidableEq

/-- An append request sent to the emitter by some component. -/
inductive Req
  | start
  | descriptor (stream : String)
  | event (stream : String) (producer : Producer)
  | stop
  deriving DecidableEq

/-- Modelled from the spec: the Document Emitter's state — the append-only
ordered log, whether the run is open, whether the stop document has sealed
it, and which streams have had their Descriptor emitted. -/
structure Emitter where
  log : List Doc
  opened : Bool
  closed : Bool
  described : List String
  deriving DecidableEq

/-- The emitter before any document is appended. -/
def Emitter.init : Emitter :=
  { log := [], opened := false, closed := false, described := [] }

/-- Modelled from the spec: the Document Emitter's append operation.  After
the stop document, every append is refused; a start opens the run; a
Descriptor is accepted once per stream while the run is open; an Event is
accepted only for a stream whose Descriptor was already emitted (whichever
component produced it); stop seals the run.  A refused append leaves the
emitter unchanged. -/
def Emitter.step (st : Emitter) (r : Req) : Emitter :=
  if st.closed then st
  else
    match r with
    | .start =>
      if st.opened then st
      else { st with log := st.log ++ [.start], opened := true }
    | .descriptor s =>
      if st.opened ∧ s ∉ st.described then
        { st with log := st.log ++ [.descriptor s],
                  described := s :: st.described }
      else st
    | .event s pr =>
      if st.opened ∧ s ∈ st.described then
        { st with log := st.log ++ [.event s pr] }
      else st
    | .stop =>
      if st.opened then { st with log := st.log ++ [.stop], closed := true }
      else st

/-- Process a whole sequence of append requests from the initial state. -/
def Emitter.run (reqs : List Req) : Emitter :=
  reqs.foldl Emitter.step Emitter.init

/-- Splitting a one-element extension of a list around a distinguished
element: either the element is the appended one, or it already occurs in
the original list. -/
lemma snoc_eq_append_cons {α : Type} {L l1 l2 : List α} {x d : α}
    (h : L ++ [d] = l1 ++ x :: l2) :
    (l1 = L ∧ x = d ∧ l2 = []) ∨ ∃ l2', L = l1 ++ x :: l2' := by
  rcases List.append_eq_append_iff.mp h with ⟨a, ha1, ha2⟩ | ⟨c, hc1, hc2⟩
  · cases a with
    | nil =>
      simp only [List.append_nil] at ha1
      simp only [List.nil_append] at ha2
      injection ha2 with h1 h2
      exact Or.inl ⟨ha1, h1.symm, h2.symm⟩
    | cons y a' =>
      simp only [List.cons_append] at ha2
      injection ha2 with h1 h2
      exact absurd h2.symm (by simp)
  · cases c with
    | nil =>
      simp only [List.append_nil] at hc1
      simp only [List.nil_append] at hc2
      injection hc2 with h1 h2
      exact Or.inl ⟨hc1.symm, h1, h2⟩
    | cons y c'' =>
      simp only [List.cons_append] at hc2
      injection hc2 with h1 h2
      subst h1
      exact Or.inr ⟨c'', by rw [hc1]⟩

/-- The emitter's maintained invariant: every described stream has its
Descriptor in the log; the stop document is in the log exactly when the
run is closed, in which case it is the last document and occurs once; and
every Event in the log is preceded by its stream's Descriptor. -/
def Emitter.Inv (st : Emitter) : Prop :=
  (∀ s, s ∈ st.described → Doc.descriptor s ∈ st.log) ∧
  (st.closed = false → Doc.stop ∉ st.log) ∧
  (st.closed = true → ∃ l, st.log = l ++ [Doc.stop] ∧ Doc.stop ∉ l) ∧
  (∀ s pr l1 l2, st.log = l1 ++ Doc.event s pr :: l2 → Doc.descriptor s ∈ l1)

/-- The initial emitter satisfies the invariant. -/
lemma Emitter.init_inv : Emitter.init.Inv := by
  refine ⟨?_, ?_, ?_, ?_⟩ <;> simp [Emitter.init, Emitter.Inv]

/-- One append preserves the invariant. -/
lemma Emitter.step_inv {st : Emitter} (hI : st.Inv) (r : Req) :
    (st.step r).Inv := by
  obtain ⟨hlink, hnostop, hstop, hprec⟩ := hI
  by_cases hc : st.closed = true
  · simpa [Emitter.step, hc] using ⟨hlink, hnostop, hstop, hprec⟩
  · simp only [Bool.not_eq_true] at hc
    cases r with
    | start =>
      by_cases ho : st.opened = true
      · simpa [Emitter.step, hc, ho] using ⟨hlink, hnostop, hstop, hprec⟩
      · simp only [Bool.not_eq_true] at ho
        simp only [Emitter.step, hc, ho, Bool.false_eq_true, if_false]
        refine ⟨?_, ?_, ?_, ?_⟩
        · intro s hs
          exact List.mem_append_left _ (hlink s hs)
        · intro _ hmem
          rcases List.mem_append.mp hmem with h | h
          · exact hnostop hc h
          · simp at h
        · intro habs; simp at habs
        · intro s pr l1 l2 hsplit
          rcases snoc_eq_append_cons hsplit with ⟨_, hx, _⟩ | ⟨l2', hL⟩
          · exact absurd hx (by simp)
          · exact hprec s pr l1 l2' hL
    | descriptor sd =>
      by_cases hg : st.opened = true ∧ sd ∉ st.described
      · simp only [Emitter.step, hc, Bool.false_eq_true, if_false, hg,
          if_true]
        refine ⟨?_, ?_, ?_, ?_⟩
        · intro s hs
          rcases List.mem_cons.mp hs with h | h
          · subst h; exact List.mem_append_right _ (by simp)
          · exact List.mem_append_left _ (hlink s h)
        · intro _ hmem
          rcases List.mem_append.mp hmem with h | h
          · exact hnostop hc h
          · simp at h
        · intro habs; simp at habs
        · intro s pr l1 l2 hsplit
          rcases snoc_eq_append_cons hsplit with ⟨_, hx, _⟩ | ⟨l2', hL⟩
          · exact absurd hx (by simp)
          · exact hprec s pr l1 l2' hL
      · simpa [Emitter.step, hc, hg] using ⟨hlink, hnostop, hstop, hprec⟩
    | event se pre =>
      by_cases hg : st.opened = true ∧ se ∈ st.described
      · simp only [Emitter.step, hc, Bool.false_eq_true, if_false, hg,
          if_true]
        refine ⟨?_, ?_, ?_, ?_⟩
        · intro s hs
          exact List.mem_append_left _ (hlink s hs)
        · intro _ hmem
          rcases List.mem_append.mp hmem with h | h
          · exact hnostop hc h
          · simp at h
        · intro habs; simp at habs
        · intro s pr l1 l2 hsplit
          rcases snoc_eq_append_cons hsplit with ⟨hl1, hx, _⟩ | ⟨l2', hL⟩
          · injection hx with hs1 hs2
            subst hs1
            subst hl1
            exact hlink s hg.2
          · exact hprec s pr l1 l2' hL
      · simpa [Emitter.step, hc, hg] using ⟨hlink, hnostop, hstop, hprec⟩
    | stop =>
      by_cases ho : st.opened = true
      · simp only [Emitter.step, hc, Bool.false_eq_true, if_false, ho,
          if_true]
        refine ⟨?_, ?_, ?_, ?_⟩
        · intro s hs
          exact List.mem_append_left _ (hlink s hs)
        · intro habs; simp at habs
        · intro _
          exact ⟨st.log, rfl, hnostop hc⟩
        · intro s pr l1 l2 hsplit
          rcases snoc_eq_append_cons hsplit with ⟨_, hx, _⟩ | ⟨l2', hL⟩
          · exact absurd hx (by simp)
          · exact hprec s pr l1 l2' hL
      · simpa [Emitter.step, hc, ho] using ⟨hlink, hnostop, hstop, hprec⟩

/-- Any run of appends preserves the invariant. -/
lemma Emitter.foldl_inv (reqs : List Req) :
    ∀ st : Emitter, st.Inv → (reqs.foldl Emitter.step st).Inv := by
  induction reqs with
  | nil => intro st h; exact h
  | cons r rest ih => intro st h; exact ih _ (Emitter.step_inv h r)

/-- The emitter reached by any request sequence satisfies the invariant. -/
lemma Emitter.run_inv (reqs : List Req) : (Emitter.run reqs).Inv :=
  Emitter.foldl_inv reqs Emitter.init Emitter.init_inv

/-- A sealed emitter refuses every further append. -/
lemma Emitter.step_closed {st : Emitter} (h : st.closed = true) (r : Req) :
    st.step r = st := by
  simp [Emitter.step, h]

/-- Claim C8: in the ordered document log of any completed (closed) run —
whatever mix of interpreter, flyer-collect and monitor appends produced
it — every Event document is preceded by its stream's Descriptor
document, the stop document follows every other document and occurs
exactly once, and no document can be appended after it. -/
theorem emitter_closed_run_invariants (reqs : List Req)
    (h : (Emitter.run reqs).closed = true) :
    (∀ s pr l1 l2,
        (Emitter.run reqs).log = l1 ++ Doc.event s pr :: l2 →
          Doc.descriptor s ∈ l1) ∧
      (∃ l, (Emitter.run reqs).log = l ++ [Doc.stop] ∧ Doc.stop ∉ l) ∧
      (Emitter.run reqs).log.count Doc.stop = 1 ∧
      (∀ r, (Emitter.run reqs).step r = Emitter.run reqs) := by
  obtain ⟨hlink, hnostop, hstop, hprec⟩ := Emitter.run_inv reqs
  obtain ⟨l, hl, hnot⟩ := hstop h
  refine ⟨fun s pr l1 l2 => hprec s pr l1 l2, ⟨l, hl, hnot⟩, ?_,
    fun r => Emitter.step_closed h r⟩
  rw [hl]
  simp [List.count_append, List.count_eq_zero.mpr hnot]

/-- Witness for C8: the closed run produced by a start, one Descriptor, one
Event and a stop. -/
theorem emitter_closed_run_invariants_witness :
    (Emitter.run [.start, .descriptor ("primary"),
        .event ("primary") .interpreter, .stop]).closed = true ∧
      ((∀ s pr l1 l2,
          (Emitter.run [.start, .descriptor ("primary"),
              .event ("primary") .interpreter, .stop]).log =
              l1 ++ Doc.event s pr :: l2 →
            Doc.descriptor s ∈ l1) ∧
        (∃ l, (Emitter.run [.start, .descriptor ("primary"),
            .event ("primary") .interpreter, .stop]).log =
            l ++ [Doc.stop] ∧ Doc.stop ∉ l) ∧
        (Emitter.run [.start, .descriptor ("primary"),
            .event ("primary") .interpreter, .stop]).log.count Doc.stop =
          1 ∧
        (∀ r, (Emitter.run [.start, .descriptor ("primary"),
            .event ("primary") .interpreter, .stop]).step r =
          Emitter.run [.start, .descriptor ("primary"),
            .event ("primary") .interpreter, .stop])) :=
  ⟨by decide, emitter_closed_run_invariants _ (by decide)⟩

end Tutorial
